import Mathlib

set_option maxRecDepth 4000

/-!
Shallow embedding of the bluestar-scraper repository
(src/tests/bluestar.spec.ts and src/tests/bluestar_all.spec.ts).

The repository scrapes product pages and appends the scraped records to an
Excel workbook.  The embedding models:

* the label-based field extraction (`matchAfter` and the sku synonym chain)
  including the JavaScript regex semantics of the concrete patterns
  `\bLABEL\s*[:#-]?\s*([^\n]+)` with case-insensitive matching, word
  boundary, greedy matching with backtracking, and `String.prototype.trim`;
* the numeric coercion helpers `parsePriceToNumber` / `parseStockToNumber`
  with JavaScript `Number` / `parseInt` semantics on the stripped strings
  (numbers are represented exactly as rationals; float rounding and
  overflow of astronomically long digit strings are not modelled);
* the two Excel writers: `writeExcel` of bluestar_all.spec.ts (which keeps
  an existing header and reconciles only the MANUFACTURER column) and the
  inline `writeExcel` of bluestar.spec.ts (which forces the canonical
  header).  A workbook is modelled as its header row plus its data rows;
  a missing file and a file whose sheet has rowCount 0 are both `none`;
* the credential check at the top of `loginIfNeeded`.
-/

/-- A JavaScript whitespace character (the ASCII part of `\s`). -/
def isJsWs (c : Char) : Bool :=
  c = ' ' || c = '\t' || c = '\n' || c = '\r' || c = '\x0b' || c = '\x0c'

/-- A JavaScript word character `\w` = `[A-Za-z0-9_]`. -/
def isWordChar (c : Char) : Bool :=
  c.isAlphanum || c = '_'

/-- A separator character of the char class `[:#-]` used in the label patterns. -/
def isSep (c : Char) : Bool :=
  c = ':' || c = '#' || c = '-'

/-- `([^\n]+)` at the current position: succeeds iff a non-newline character is
next, and greedily captures the maximal run of non-newline characters. -/
def captureAt : List Char → Option (List Char)
  | [] => none
  | c :: rest =>
      if c = '\n' then none
      else some ((c :: rest).takeWhile (fun d => !(d = '\n')))

/-- Length of the maximal whitespace prefix (the greedy extent of `\s*`). -/
def wsLen (l : List Char) : Nat :=
  (l.takeWhile isJsWs).length

/-- `\s*([^\n]+)`: greedy `\s*` with backtracking, then the capture group.
Tries the largest whitespace prefix first and backtracks one character at a
time, exactly as the JavaScript regex engine does. -/
def tryTail (l : List Char) : Option (List Char) :=
  ((List.range (wsLen l + 1)).reverse).findSome? (fun j => captureAt (l.drop j))

/-- `[:#-]?\s*([^\n]+)`: the optional separator is tried greedily (consume
first, fall back to not consuming). -/
def trySep (l : List Char) : Option (List Char) :=
  match l with
  | [] => tryTail []
  | c :: rest => if isSep c then (tryTail rest).orElse (fun _ => tryTail (c :: rest)) else tryTail (c :: rest)

/-- `\s*[:#-]?\s*([^\n]+)`: the part of the label patterns after the label. -/
def tryAfterLabel (l : List Char) : Option (List Char) :=
  ((List.range (wsLen l + 1)).reverse).findSome? (fun j => trySep (l.drop j))

/-- Case-insensitive literal match; returns the remainder after the label. -/
def matchCI : List Char → List Char → Option (List Char)
  | [], rest => some rest
  | _ :: _, [] => none
  | c :: cs, d :: ds => if c.toLower = d.toLower then matchCI cs ds else none

/-- The word boundary `\b` between the previous character and the current
position (out of bounds counts as a non-word character). -/
def atBoundary (prev : Option Char) (l : List Char) : Bool :=
  let pw := match prev with
    | some c => isWordChar c
    | none => false
  let cw := match l with
    | c :: _ => isWordChar c
    | [] => false
  pw != cw

/-- Leftmost match of `\bLABEL\s*[:#-]?\s*([^\n]+)` (case-insensitive):
scan start positions left to right; at each position require the word
boundary and the label, then the tail pattern; if the tail fails the scan
continues at the next position, as in JavaScript `String.prototype.match`.
Returns the raw capture of group 1. -/
def scanLabel (label : List Char) : Option Char → List Char → Option (List Char)
  | prev, [] =>
      if atBoundary prev [] then (matchCI label []).bind tryAfterLabel else none
  | prev, c :: rest =>
      match (if atBoundary prev (c :: rest) then (matchCI label (c :: rest)).bind tryAfterLabel else none) with
      | some cap => some cap
      | none => scanLabel label (some c) rest

/-- JavaScript `String.prototype.trim` (on the ASCII whitespace we model). -/
def jsTrim (l : List Char) : List Char :=
  ((l.dropWhile isJsWs).reverse.dropWhile isJsWs).reverse

/-- `matchAfter` from extractProductDetails (bluestar_all.spec.ts lines
97-101, bluestar.spec.ts lines 104-108): match the label pattern, trim the
capture, and coerce an empty trimmed capture to null via `|| null`. -/
def matchAfter (label text : List Char) : Option (List Char) :=
  match scanLabel label none text with
  | none => none
  | some cap => if jsTrim cap = [] then none else some (jsTrim cap)

/-- The sku label synonym list: `matchAfter(/\bSKU.../i) || matchAfter(/\bItem.../i) || null`
(bluestar_all.spec.ts line 102, bluestar.spec.ts line 110).  `matchAfter`
never returns an empty string, so `||` selects the first non-null result. -/
def extract_sku (text : List Char) : Option (List Char) :=
  match matchAfter "SKU".data text with
  | some v => some v
  | none => matchAfter "Item".data text

/-- A cell of the workbook: a string, an exact number, or the empty marker
(a JavaScript `null` cell / an absent cell). -/
inductive CellValue where
  | s (v : String)
  | num (q : ℚ)
  | empty
  deriving DecidableEq, Repr

/-- The `ProductRecord` type of both spec files: `productUrl` is a string,
every other field is `string | null`. -/
structure ProductRecord where
  productUrl : String
  productName : Option String
  sku : Option String
  mpn : Option String
  manufacturer : Option String
  price : Option String
  stock : Option String
  description : Option String
  deriving DecidableEq, Repr

/-- A worksheet: the header row plus the data rows beneath it.  An absent
file, and a sheet with `rowCount === 0`, are both represented by `none` at
the call sites. -/
structure Sheet where
  header : List String
  rows : List (List CellValue)
  deriving DecidableEq, Repr

/-- `rec.x ?? null` stored into a cell: null becomes the empty marker. -/
def cellOfOpt : Option String → CellValue
  | none => CellValue.empty
  | some v => CellValue.s v

/-- Digit string to natural number. -/
def digitsToNat (l : List Char) : Nat :=
  l.foldl (fun acc c => 10 * acc + (c.toNat - '0'.toNat)) 0

/-- JavaScript `Number` on an unsigned decimal string made only of digits
and dots: `digits`, `digits.digits`, `.digits`, `digits.` are valid; a
missing digit on both sides of the dot, a second dot, or a stray `-` is NaN. -/
def decToRat (l : List Char) : Option ℚ :=
  let ip := l.takeWhile Char.isDigit
  let rest := l.dropWhile Char.isDigit
  match rest with
  | [] => if ip.isEmpty then none else some (digitsToNat ip : ℚ)
  | '.' :: frac =>
      if frac.all Char.isDigit && (!ip.isEmpty || !frac.isEmpty) then
        some ((digitsToNat ip : ℚ) + (digitsToNat frac : ℚ) / ((10 : ℚ) ^ frac.length))
      else none
  | _ => none

/-- JavaScript `Number` applied to a string containing only digits, `.` and
`-` (the only characters that survive the price strip).  The empty string
parses to 0; a single leading `-` negates; anything else with a `-` is NaN. -/
def jsNumberOfStripped (l : List Char) : Option ℚ :=
  match l with
  | [] => some 0
  | '-' :: rest => if rest.isEmpty then none else (decToRat rest).map (fun q => -q)
  | _ => decToRat l

/-- Maximal leading digit run parsed as a natural number (NaN if none). -/
def leadingNat (l : List Char) : Option Nat :=
  let d := l.takeWhile Char.isDigit
  if d.isEmpty then none else some (digitsToNat d)

/-- JavaScript `Number.parseInt(s, 10)` on a string of digits and `-`:
optional leading sign, then the maximal leading digit run; NaN when no
leading digits follow. -/
def jsParseInt10 (l : List Char) : Option Int :=
  match l with
  | '-' :: rest => (leadingNat rest).map (fun n => -(n : Int))
  | _ => (leadingNat l).map (fun n => (n : Int))

/-- `p.replace(/[^0-9.\-]/g, '')`. -/
def stripPriceChars (s : String) : String :=
  String.mk (s.data.filter (fun c => c.isDigit || c = '.' || c = '-'))

/-- `s.replace(/[^0-9\-]/g, '')`. -/
def stripStockChars (s : String) : String :=
  String.mk (s.data.filter (fun c => c.isDigit || c = '-'))

/-- `parsePriceToNumber` (bluestar_all.spec.ts lines 186-190; the inline
writer's `parsePrice` at bluestar.spec.ts lines 217-221 is the identical
text): null or empty string short-circuits to null via `if (!p)`; otherwise
strip and apply `Number`; `Number.isFinite` always holds for the exact
rationals of this model. -/
def parsePriceToNumber (p : Option String) : Option ℚ :=
  match p with
  | none => none
  | some v => if v = "" then none else jsNumberOfStripped (stripPriceChars v).data

/-- `parseStockToNumber` (bluestar_all.spec.ts lines 191-197; the inline
writer's `parseStock` at bluestar.spec.ts lines 222-228 is the identical
text). -/
def parseStockToNumber (s : Option String) : Option Int :=
  match s with
  | none => none
  | some v =>
      if v = "" then none
      else
        if stripStockChars v = "" then none
        else jsParseInt10 (stripStockChars v).data

/-- `priceNumber ?? rec.price ?? null` as a cell value. -/
def priceCell (p : Option String) : CellValue :=
  match parsePriceToNumber p with
  | some q => CellValue.num q
  | none =>
      match p with
      | some v => CellValue.s v
      | none => CellValue.empty

/-- `stockNumber ?? rec.stock ?? null` as a cell value. -/
def stockCell (s : Option String) : CellValue :=
  match parseStockToNumber s with
  | some n => CellValue.num (n : ℚ)
  | none =>
      match s with
      | some v => CellValue.s v
      | none => CellValue.empty

/-- The canonical header list (`defaultHeaders` in both writers). -/
def defaultHeaders : List String :=
  ["DATE", "TIME", "Item Name", "SKU", "DESCRIPTION", "MPN", "MANUFACTURER",
   "PRICE", "STOCK", "PRODUCT URL"]

/-- The ten assignments `rowValues[headerIndex[...]] = ...` of
bluestar_all.spec.ts lines 217-230, in source order. -/
def fieldAssignments (pr : ProductRecord) (runDate runTime : String) :
    List (String × CellValue) :=
  [("DATE", CellValue.s runDate),
   ("TIME", CellValue.s runTime),
   ("Item Name", cellOfOpt pr.productName),
   ("SKU", cellOfOpt pr.sku),
   ("DESCRIPTION", cellOfOpt pr.description),
   ("MPN", cellOfOpt pr.mpn),
   ("MANUFACTURER", cellOfOpt pr.manufacturer),
   ("PRICE", priceCell pr.price),
   ("STOCK", stockCell pr.stock),
   ("PRODUCT URL", CellValue.s pr.productUrl)]

/-- `headerIndex[h]` of bluestar_all.spec.ts lines 175-178 (0-based here):
the last occurrence wins because the forEach overwrites earlier entries. -/
def headerIndexLast (headers : List String) (name : String) : Option Nat :=
  ((List.range headers.length).filter (fun i => headers.get? i == some name)).getLast?

/-- One appended row of bluestar_all's writeExcel: position `j` receives the
last assignment in source order whose header name resolves to `j`;
positions no assignment reaches stay empty (a hole of the sparse
`rowValues` array); assignments whose name is absent from the header are
dropped (`rowValues[undefined]` is not an array index). -/
def rowForHeader (headers : List String) (runDate runTime : String)
    (pr : ProductRecord) : List CellValue :=
  (List.range headers.length).map (fun j =>
    match ((fieldAssignments pr runDate runTime).filter
        (fun a => headerIndexLast headers a.1 == some j)).getLast? with
    | some a => a.2
    | none => CellValue.empty)

/-- One appended row of the inline writer of bluestar.spec.ts (lines
234-249): `addRow` with an object keyed by the canonical `columnDefs`, so
every value lands at its canonical position. -/
def rowCanonical (runDate runTime : String) (pr : ProductRecord) : List CellValue :=
  [CellValue.s runDate, CellValue.s runTime, cellOfOpt pr.productName,
   cellOfOpt pr.sku, cellOfOpt pr.description, cellOfOpt pr.mpn,
   cellOfOpt pr.manufacturer, priceCell pr.price, stockCell pr.stock,
   CellValue.s pr.productUrl]

/-- `writeExcel` of bluestar_all.spec.ts (lines 112-240): a fresh sheet gets
the canonical header; an existing sheet keeps its header, with
'MANUFACTURER' appended at the end when absent (lines 161-172); the new
rows are appended after the existing rows, positioned by name lookup in
the current header. -/
def writeExcelAll (prior : Option Sheet) (records : List ProductRecord)
    (runDate runTime : String) : Sheet :=
  match prior with
  | none =>
      { header := defaultHeaders
        rows := records.map (rowForHeader defaultHeaders runDate runTime) }
  | some sh =>
      let headers := if sh.header.contains "MANUFACTURER" then sh.header
        else sh.header ++ ["MANUFACTURER"]
      { header := headers
        rows := sh.rows ++ records.map (rowForHeader headers runDate runTime) }

/-- The inline `writeExcel` of bluestar.spec.ts (lines 151-256): a fresh
sheet gets the canonical columns; an existing sheet has its header row
overwritten in place with the canonical list (lines 196-213); rows are
appended keyed by the canonical columns. -/
def writeExcelInline (prior : Option Sheet) (records : List ProductRecord)
    (runDate runTime : String) : Sheet :=
  match prior with
  | none =>
      { header := defaultHeaders
        rows := records.map (rowCanonical runDate runTime) }
  | some sh =>
      { header := defaultHeaders
        rows := sh.rows ++ records.map (rowCanonical runDate runTime) }

/-- The browser actions of `loginIfNeeded` that follow the credential check. -/
inductive LoginStep where
  | gotoLogin
  | fillEmail
  | fillPassword
  | clickLogin
  | waitForPostLogin
  deriving DecidableEq, Repr

/-- `loginIfNeeded` (bluestar_all.spec.ts lines 37-55, bluestar.spec.ts
lines 25-46): `process.env.X || ''` then `if (!email || !password) throw`.
The thrown error precedes every page action, so the error branch carries no
steps; the success branch performs the navigation and form actions. -/
def loginIfNeeded (email password : Option String) : Except String (List LoginStep) :=
  let e := email.getD ""
  let p := password.getD ""
  if e = "" ∨ p = "" then
    Except.error "Please set MEDSTAT_EMAIL and MEDSTAT_PASSWORD in your .env file."
  else
    Except.ok [LoginStep.gotoLogin, LoginStep.fillEmail, LoginStep.fillPassword,
      LoginStep.clickLogin, LoginStep.waitForPostLogin]

theorem rowForHeader_defaultHeaders (runDate runTime : String) (pr : ProductRecord) :
    rowForHeader defaultHeaders runDate runTime pr = rowCanonical runDate runTime pr := rfl

/-- Claim C1, counterexample: the price string "Call for quote" strips to the
empty string, JavaScript `Number('')` is 0, and 0 is finite, so the PRICE
cell receives the number 0 — not the original string verbatim as the claim
states. -/
theorem price_claim_counterexample :
    priceCell (some "Call for quote") = CellValue.num 0 ∧
    priceCell (some "Call for quote") ≠ CellValue.s "Call for quote" := by
  decide

/-- Claim C1, amended: for a non-empty price string the PRICE cell holds the
JavaScript `Number` of the stripped string when that parse succeeds (the
empty stripped string parses to 0), and the original string verbatim when
it does not; "$1,234.56" is stored as 1234.56, "Call for quote" as the
number 0, and the unparseable "1.2.3" verbatim. -/
theorem price_coercion_amended :
    (∀ p : String, p ≠ "" →
      priceCell (some p) =
        (match jsNumberOfStripped (stripPriceChars p).data with
         | some q => CellValue.num q
         | none => CellValue.s p)) ∧
    priceCell (some "$1,234.56") = CellValue.num (123456 / 100) ∧
    priceCell (some "Call for quote") = CellValue.num 0 ∧
    priceCell (some "1.2.3") = CellValue.s "1.2.3" := by
  refine ⟨fun p hp => ?_, ?_, by decide, by decide⟩
  case refine_2 =>
    have h : priceCell (some "$1,234.56") =
        CellValue.num ((1234 : ℚ) + (56 : ℚ) / ((10 : ℚ) ^ (2 : ℕ))) := by
      simp +decide [priceCell, parsePriceToNumber, stripPriceChars, jsNumberOfStripped,
        decToRat, digitsToNat]
    rw [h]
    norm_num
  have h1 : parsePriceToNumber (some p) = jsNumberOfStripped (stripPriceChars p).data := by
    simp [parsePriceToNumber, hp]
  cases hj : jsNumberOfStripped (stripPriceChars p).data <;>
    simp [priceCell, h1, hj]

/-- Witness for the amended claim C1 at the concrete price "$5". -/
theorem price_coercion_amended_witness :
    priceCell (some "$5") = CellValue.num 5 :=
  (price_coercion_amended.1 "$5" (by decide)).trans (by decide)

/-- Claim C6: the STOCK cell holds the integer obtained by stripping all
characters except digits and '-' and applying `parseInt`; when the stripped
string is empty or does not parse, the original string is stored verbatim;
"12 in stock" is stored as 12 and "N/A" verbatim. -/
theorem stock_coercion :
    (∀ s : String,
      stockCell (some s) =
        (match (if stripStockChars s = "" then none
                else jsParseInt10 (stripStockChars s).data) with
         | some n => CellValue.num (n : ℚ)
         | none => CellValue.s s)) ∧
    stockCell (some "12 in stock") = CellValue.num 12 ∧
    stockCell (some "N/A") = CellValue.s "N/A" := by
  refine ⟨fun s => ?_, by decide, by decide⟩
  by_cases hs : s = ""
  · subst hs; decide
  · have h1 : parseStockToNumber (some s) =
        (if stripStockChars s = "" then none
         else jsParseInt10 (stripStockChars s).data) := by
      simp [parseStockToNumber, hs]
    cases hj : (if stripStockChars s = "" then none
        else jsParseInt10 (stripStockChars s).data) <;>
      simp [stockCell, h1, hj]

/-- Claim C4: writing any batch of N records when no workbook exists yields
the canonical header row and exactly N data rows. -/
theorem fresh_file_layout (records : List ProductRecord) (runDate runTime : String) :
    (writeExcelAll none records runDate runTime).header = defaultHeaders ∧
    (writeExcelAll none records runDate runTime).rows.length = records.length := by
  simp [writeExcelAll]

/-- Claim C5: two consecutive runs against the same workbook are purely
cumulative for both writers: the rows present after run 1 are an unchanged
prefix of the rows after run 2, and the row count after run 2 is the count
after run 1 plus the size of run 2's batch. -/
theorem append_cumulative (prior : Option Sheet) (b1 b2 : List ProductRecord)
    (rd1 rt1 rd2 rt2 : String) :
    ((writeExcelAll (some (writeExcelAll prior b1 rd1 rt1)) b2 rd2 rt2).rows.take
        (writeExcelAll prior b1 rd1 rt1).rows.length =
      (writeExcelAll prior b1 rd1 rt1).rows) ∧
    ((writeExcelAll (some (writeExcelAll prior b1 rd1 rt1)) b2 rd2 rt2).rows.length =
      (writeExcelAll prior b1 rd1 rt1).rows.length + b2.length) ∧
    ((writeExcelInline (some (writeExcelInline prior b1 rd1 rt1)) b2 rd2 rt2).rows.take
        (writeExcelInline prior b1 rd1 rt1).rows.length =
      (writeExcelInline prior b1 rd1 rt1).rows) ∧
    ((writeExcelInline (some (writeExcelInline prior b1 rd1 rt1)) b2 rd2 rt2).rows.length =
      (writeExcelInline prior b1 rd1 rt1).rows.length + b2.length) := by
  generalize writeExcelAll prior b1 rd1 rt1 = X
  generalize writeExcelInline prior b1 rd1 rt1 = Y
  refine ⟨?_, ?_, ?_, ?_⟩ <;>
    simp [writeExcelAll, writeExcelInline, List.take_left]

/-- Claim C2, counterexample: against an existing workbook whose header lacks
the canonical display name "SKU", appending a record that carries a sku
value does not add a "SKU" column — the writer only ever reconciles
"MANUFACTURER". -/
theorem append_no_sku_reconciliation :
    ((writeExcelAll
        (some ⟨["DATE", "TIME", "Item Name", "DESCRIPTION", "MPN", "MANUFACTURER",
                "PRICE", "STOCK", "PRODUCT URL"], []⟩)
        [⟨"u", none, some "S-1", none, none, none, none, none⟩] "d" "t").header.contains
      "SKU" = false) ∧
    (⟨"u", none, some "S-1", none, none, none, none, none⟩ : ProductRecord).sku
      = some "S-1" := by
  decide

/-- Claim C2, amended: appending to an existing workbook never changes the
position of any existing column (the old header is an unchanged prefix of
the new one) and never touches existing rows; but schema reconciliation
applies only to the display name "MANUFACTURER": when it is absent it is
appended strictly after all existing columns, and pre-existing rows (which
are no longer than the old header) show the absent marker under it; no
other missing display name is ever appended. -/
theorem append_preserves_columns (sh : Sheet) (records : List ProductRecord)
    (runDate runTime : String)
    (hlen : ∀ r ∈ sh.rows, r.length ≤ sh.header.length) :
    ((writeExcelAll (some sh) records runDate runTime).header.take sh.header.length
        = sh.header) ∧
    ("MANUFACTURER" ∈ sh.header →
      (writeExcelAll (some sh) records runDate runTime).header = sh.header) ∧
    ("MANUFACTURER" ∉ sh.header →
      (writeExcelAll (some sh) records runDate runTime).header
          = sh.header ++ ["MANUFACTURER"] ∧
      ∀ r ∈ sh.rows, r.getD sh.header.length CellValue.empty = CellValue.empty) ∧
    ((writeExcelAll (some sh) records runDate runTime).rows.take sh.rows.length
        = sh.rows) := by
  have hdr : (writeExcelAll (some sh) records runDate runTime).header
      = if "MANUFACTURER" ∈ sh.header then sh.header
        else sh.header ++ ["MANUFACTURER"] := by
    simp [writeExcelAll]
  refine ⟨?_, fun hm => ?_, fun hm => ⟨?_, ?_⟩, ?_⟩
  · by_cases hm : "MANUFACTURER" ∈ sh.header <;>
      simp [hdr, hm, List.take_left, List.take_length]
  · simp [hdr, hm]
  · simp [hdr, hm]
  · intro r hr
    exact List.getD_eq_default _ _ (hlen r hr)
  · simp [writeExcelAll, List.take_left]

/-- Witness for the amended claim C2: a one-column workbook with one data row
gains a trailing MANUFACTURER column, and the old row has the absent marker
under it. -/
theorem append_preserves_columns_witness :
    (writeExcelAll (some ⟨["DATE"], [[CellValue.s "x"]]⟩) [] "d" "t").header
        = ["DATE", "MANUFACTURER"] ∧
    [CellValue.s "x"].getD 1 CellValue.empty = CellValue.empty := by
  have h := append_preserves_columns ⟨["DATE"], [[CellValue.s "x"]]⟩ [] "d" "t"
    (by decide)
  have h3 := h.2.2.1 (by decide)
  exact ⟨h3.1, h3.2 [CellValue.s "x"] (by decide)⟩

/-- Claim C3, counterexample: on a populated workbook whose header is the
canonical list without MANUFACTURER, the bluestar_all writer appends
MANUFACTURER after PRODUCT URL while the inline bluestar writer rewrites
the header to the canonical order with MANUFACTURER in seventh position,
so the two writers produce different workbooks. -/
theorem writeExcel_writers_differ :
    writeExcelAll
        (some ⟨["DATE", "TIME", "Item Name", "SKU", "DESCRIPTION", "MPN",
                "PRICE", "STOCK", "PRODUCT URL"], []⟩) [] "d" "t" ≠
      writeExcelInline
        (some ⟨["DATE", "TIME", "Item Name", "SKU", "DESCRIPTION", "MPN",
                "PRICE", "STOCK", "PRODUCT URL"], []⟩) [] "d" "t" := by
  decide

/-- Claim C3, amended: the two writers produce the same workbook whenever the
prior state is absent/empty or the prior header row equals the canonical
column list; they can differ on a populated workbook whose header row
deviates from the canonical list. -/
theorem writers_agree (prior : Option Sheet) (records : List ProductRecord)
    (runDate runTime : String)
    (h : prior = none ∨ ∃ rows, prior = some ⟨defaultHeaders, rows⟩) :
    writeExcelAll prior records runDate runTime
      = writeExcelInline prior records runDate runTime := by
  have hf : rowForHeader defaultHeaders runDate runTime = rowCanonical runDate runTime :=
    funext (fun pr => rowForHeader_defaultHeaders runDate runTime pr)
  rcases h with h | ⟨rows, h⟩ <;> subst h <;>
    simp [writeExcelAll, writeExcelInline, hf,
      show "MANUFACTURER" ∈ defaultHeaders by decide]

/-- Witness for the amended claim C3 at an absent prior workbook. -/
theorem writers_agree_witness :
    writeExcelAll none [] "d" "t" = writeExcelInline none [] "d" "t" :=
  writers_agree none [] "d" "t" (Or.inl rfl)

/-- Claim C7: every absent canonical field is stored as the explicit empty
marker at that field's canonical column position, never omitted
positionally (the row always has all ten cells and productUrl always lands
in the last one); a record whose only non-absent field is productUrl is
appended as exactly one row of empty markers around the date, time and url. -/
theorem absent_fields_explicit_empty (pr : ProductRecord) (runDate runTime u : String) :
    ((rowForHeader defaultHeaders runDate runTime pr).length = 10) ∧
    (pr.productName = none →
      (rowForHeader defaultHeaders runDate runTime pr).get? 2 = some CellValue.empty) ∧
    (pr.sku = none →
      (rowForHeader defaultHeaders runDate runTime pr).get? 3 = some CellValue.empty) ∧
    (pr.description = none →
      (rowForHeader defaultHeaders runDate runTime pr).get? 4 = some CellValue.empty) ∧
    (pr.mpn = none →
      (rowForHeader defaultHeaders runDate runTime pr).get? 5 = some CellValue.empty) ∧
    (pr.manufacturer = none →
      (rowForHeader defaultHeaders runDate runTime pr).get? 6 = some CellValue.empty) ∧
    (pr.price = none →
      (rowForHeader defaultHeaders runDate runTime pr).get? 7 = some CellValue.empty) ∧
    (pr.stock = none →
      (rowForHeader defaultHeaders runDate runTime pr).get? 8 = some CellValue.empty) ∧
    ((rowForHeader defaultHeaders runDate runTime pr).get? 9
      = some (CellValue.s pr.productUrl)) ∧
    ((writeExcelAll none [⟨u, none, none, none, none, none, none, none⟩]
        runDate runTime).rows
      = [[CellValue.s runDate, CellValue.s runTime, CellValue.empty, CellValue.empty,
          CellValue.empty, CellValue.empty, CellValue.empty, CellValue.empty,
          CellValue.empty, CellValue.s u]]) := by
  refine ⟨?_, ?_, ?_, ?_, ?_, ?_, ?_, ?_, ?_, ?_⟩ <;>
    first
      | (intro h;
         simp [rowForHeader_defaultHeaders, rowCanonical, cellOfOpt, h, priceCell,
           parsePriceToNumber, stockCell, parseStockToNumber])
      | simp [rowForHeader_defaultHeaders, rowCanonical, writeExcelAll, cellOfOpt,
          priceCell, parsePriceToNumber, stockCell, parseStockToNumber]

/-- Witness for claim C7 at a concrete record carrying only a productUrl. -/
theorem absent_fields_explicit_empty_witness :
    (rowForHeader defaultHeaders "d" "t"
        ⟨"u", none, none, none, none, none, none, none⟩).get? 3 = some CellValue.empty :=
  (absent_fields_explicit_empty ⟨"u", none, none, none, none, none, none, none⟩
    "d" "t" "u").2.2.1 rfl

/-- Claim C8: the sku synonyms are evaluated in their fixed priority order
(the SKU pattern before the Item pattern) and the first one whose
matchAfter yields a value wins; when the SKU pattern yields nothing the
result is exactly the Item pattern's result (absent when that one yields
nothing too); extraction is a total function, so no input text raises an
error. -/
theorem sku_synonym_priority (text : List Char) :
    (∀ v, matchAfter "SKU".data text = some v → extract_sku text = some v) ∧
    (matchAfter "SKU".data text = none →
      extract_sku text = matchAfter "Item".data text) := by
  constructor
  · intro v h
    simp [extract_sku, h]
  · intro h
    simp [extract_sku, h]

/-- Witness for claim C8 at a text where the SKU pattern matches. -/
theorem sku_synonym_priority_witness :
    extract_sku "SKU: A1\nItem: B2".data = some "A1".data :=
  (sku_synonym_priority "SKU: A1\nItem: B2".data).1 "A1".data (by decide)

/-- Claim C10: when the label pattern matches but the captured remainder
trims to the empty string, matchAfter returns the absent value; hence on
the text "Item: ABC\nSKU:   " — where the SKU label is followed only by
whitespace to the end of the line — the raw SKU capture is a whitespace
string, matchAfter on SKU is absent, and the sku extraction falls through
to the lower-priority Item synonym. -/
theorem matchAfter_empty_capture_absent :
    (∀ label text cap, scanLabel label none text = some cap → jsTrim cap = [] →
      matchAfter label text = none) ∧
    (scanLabel "SKU".data none "Item: ABC\nSKU:   ".data = some " ".data ∧
     matchAfter "SKU".data "Item: ABC\nSKU:   ".data = none ∧
     extract_sku "Item: ABC\nSKU:   ".data = some "ABC".data) := by
  constructor
  · intro label text cap h ht
    simp [matchAfter, h, ht]
  · exact ⟨by decide, by decide, by decide⟩

/-- Witness for claim C10 at a concrete text whose SKU capture trims empty. -/
theorem matchAfter_empty_capture_absent_witness :
    matchAfter "SKU".data "SKU:  ".data = none :=
  matchAfter_empty_capture_absent.1 "SKU".data "SKU:  ".data " ".data
    (by decide) (by decide)

/-- Claim C9: when either credential environment variable is missing or
empty, loginIfNeeded fails with the configuration error before performing
any page action (the error branch carries no navigation steps); when both
are non-empty no such error is raised and the login navigation proceeds. -/
theorem login_credentials (email password : Option String) :
    ((email.getD "" = "" ∨ password.getD "" = "") →
      loginIfNeeded email password =
        Except.error "Please set MEDSTAT_EMAIL and MEDSTAT_PASSWORD in your .env file.") ∧
    (email.getD "" ≠ "" → password.getD "" ≠ "" →
      loginIfNeeded email password =
        Except.ok [LoginStep.gotoLogin, LoginStep.fillEmail, LoginStep.fillPassword,
          LoginStep.clickLogin, LoginStep.waitForPostLogin]) := by
  constructor
  · intro h
    simp only [loginIfNeeded]
    rw [if_pos h]
  · intro h1 h2
    simp only [loginIfNeeded]
    rw [if_neg (fun hc => hc.elim h1 h2)]

/-- Witness for claim C9: absent email errors out; full credentials log in. -/
theorem login_credentials_witness :
    loginIfNeeded none (some "pw") =
      Except.error "Please set MEDSTAT_EMAIL and MEDSTAT_PASSWORD in your .env file." ∧
    loginIfNeeded (some "user") (some "pw") =
      Except.ok [LoginStep.gotoLogin, LoginStep.fillEmail, LoginStep.fillPassword,
        LoginStep.clickLogin, LoginStep.waitForPostLogin] :=
  ⟨(login_credentials none (some "pw")).1 (Or.inl rfl),
   (login_credentials (some "user") (some "pw")).2 (by decide) (by decide)⟩
